import Mathlib

/-!
Verification of the PiteYela point-of-sale core (app/models.py, app/database.py,
app/pos.py, app/inventory.py, app/reports.py) as a shallow embedding.

Modelling conventions:
* SQLite tables become Lean lists of row structures held in a `Store` record;
  rows appear in insertion (rowid) order, and AUTOINCREMENT ids are modelled by
  the `next_sale_id` / `next_item_id` counters.
* Python floats carrying money are modelled as exact rationals; Python's
  `round(x, 2)` (banker's rounding) becomes `round2` below, built on a
  round-half-to-even integer rounding.
* `CURRENT_TIMESTAMP` is modelled by the `now : Nat` field of the store.
* Fallible paths return explicit result values mirroring the Python return
  values; external failure points (a transaction of `execute_transaction`
  failing, the final `conn.commit()` failing) are explicit Bool parameters.
-/

/-- Round-half-to-even of a rational to an integer, the semantics of Python's
built-in rounding on exact values. -/
def roundHalfEven (x : ℚ) : ℤ :=
  let f : ℤ := ⌊x⌋
  let r : ℚ := x - f
  if r < 1/2 then f
  else if 1/2 < r then f + 1
  else if f % 2 = 0 then f else f + 1

/-- Python `round(x, 2)`: round half to even at two decimal places. -/
def round2 (x : ℚ) : ℚ :=
  (roundHalfEven (100 * x) : ℚ) / 100

/-- models.py `calculate_line_total`: `round(unit_price * quantity, 2)`. -/
def calculate_line_total (unit_price : ℚ) (quantity : ℤ) : ℚ :=
  round2 (unit_price * quantity)

/-- One entry of the in-memory cart list (`self.cart` in pos.py): a dict with
keys product_id, product_name, quantity, unit_price, line_total. -/
structure CartItem where
  product_id : String
  product_name : String
  quantity : ℤ
  unit_price : ℚ
  line_total : ℚ
  deriving DecidableEq, Repr

/-- models.py `calculate_grand_total`: sum the per-item
`calculate_line_total`, then `round(total, 2)` once more. -/
def calculate_grand_total (items : List CartItem) : ℚ :=
  round2 ((items.map (fun i => calculate_line_total i.unit_price i.quantity)).sum)

/-- A row of the `products` table (database.py `init_db`): stored columns
only; `profit` and `quantity_available` are stored denormalized copies. -/
structure ProductRow where
  id : String
  name : String
  description : String
  milliliters : ℤ
  cost_price : ℚ
  selling_price : ℚ
  profit : ℚ
  quantity_stocked : ℤ
  quantity_sold : ℤ
  quantity_available : ℤ
  created_at : Nat
  updated_at : Nat
  deriving DecidableEq, Repr

/-- The in-memory `Product` model of models.py: only the columns selected by
`get_product`; `profit` and `quantity_available` are computed properties. -/
structure Product where
  id : String
  name : String
  description : String
  milliliters : ℤ
  cost_price : ℚ
  selling_price : ℚ
  quantity_stocked : ℤ
  quantity_sold : ℤ
  deriving DecidableEq, Repr

/-- models.py `Product.profit` property: `selling_price - cost_price`. -/
def Product.profit (p : Product) : ℚ :=
  p.selling_price - p.cost_price

/-- models.py `Product.quantity_available` property:
`quantity_stocked - quantity_sold` (recomputed, not the stored column). -/
def Product.quantity_available (p : Product) : ℤ :=
  p.quantity_stocked - p.quantity_sold

/-- A row of the `sales` table. -/
structure SaleRow where
  id : Nat
  cashier_id : ℤ
  cashier_name : String
  sale_date : Nat
  grand_total : ℚ
  deriving DecidableEq, Repr

/-- A row of the `sale_items` table. -/
structure SaleItemRow where
  id : Nat
  sale_id : Nat
  product_id : String
  product_name : String
  quantity : ℤ
  unit_price : ℚ
  line_total : ℚ
  milliliters : ℤ
  deriving DecidableEq, Repr

/-- The persistent store: the three tables the core touches, the autoincrement
counters, and the current timestamp. -/
structure Store where
  products : List ProductRow
  sales : List SaleRow
  sale_items : List SaleItemRow
  next_sale_id : Nat
  next_item_id : Nat
  now : Nat
  deriving DecidableEq, Repr

/-- Projection of a stored row to the in-memory model, as built by
`get_product` from its SELECT column list. -/
def ProductRow.toProduct (r : ProductRow) : Product :=
  { id := r.id, name := r.name, description := r.description,
    milliliters := r.milliliters, cost_price := r.cost_price,
    selling_price := r.selling_price,
    quantity_stocked := r.quantity_stocked, quantity_sold := r.quantity_sold }

/-- models.py `get_product`: `SELECT ... FROM products WHERE id = ?`; `id` is
the primary key, so the first (only) matching row is returned, or None. -/
def get_product (db : Store) (product_id : String) : Option Product :=
  (db.products.find? (fun r => r.id == product_id)).map ProductRow.toProduct

/-- The result of models.py `validate_stock_availability`, which returns
`(False, "Product not found")`, `(False, "Insufficient stock. Available: a")`
or `(True, "")`; the available quantity interpolated into the message is
carried as the payload of `insufficient`. -/
inductive StockCheck where
  | ok : StockCheck
  | notFound : StockCheck
  | insufficient (available : ℤ) : StockCheck
  deriving DecidableEq, Repr

/-- models.py `validate_stock_availability`: look the product up; fail with
not-found when absent, fail when `quantity_available < requested_quantity`,
succeed otherwise. Pure read: it takes the store and returns only a result. -/
def validate_stock_availability (db : Store) (product_id : String)
    (requested_quantity : ℤ) : StockCheck :=
  match get_product db product_id with
  | none => .notFound
  | some p =>
      if p.quantity_available < requested_quantity then
        .insufficient p.quantity_available
      else .ok

/-- A concrete product row used by the evaluation witnesses. -/
def rowP1 : ProductRow :=
  { id := "P1", name := "Beer", description := "", milliliters := 500,
    cost_price := 80, selling_price := 100, profit := 20,
    quantity_stocked := 10, quantity_sold := 4, quantity_available := 6,
    created_at := 0, updated_at := 0 }

/-- A concrete store holding only rowP1, used by the evaluation witnesses. -/
def storeA : Store :=
  { products := [rowP1], sales := [], sale_items := [],
    next_sale_id := 1, next_item_id := 1, now := 5 }

/-- models.py `update_inventory_after_sale`: a single UPDATE statement,
`SET quantity_sold = quantity_sold + ?, updated_at = CURRENT_TIMESTAMP WHERE
id = ?`, run through `execute_transaction` (its own connection, committed
immediately). Only the matching row's quantity_sold and updated_at change. -/
def update_inventory_after_sale (db : Store) (product_id : String)
    (quantity_sold : ℤ) : Store :=
  { db with products := db.products.map (fun r =>
      if r.id == product_id then
        { r with quantity_sold := r.quantity_sold + quantity_sold,
                 updated_at := db.now }
      else r) }

/-- The inventory-update loop at the end of `create_sale`: one
`update_inventory_after_sale` per cart item, each on its own connection and
committed at once. The Bool list records, per item, whether that separate
transaction succeeded (`execute_transaction` returns False on failure and
`create_sale` ignores the returned flag); a missing entry means success. -/
def applyDeductions : Store → List CartItem → List Bool → Store
  | db, [], _ => db
  | db, it :: rest, oks =>
      applyDeductions
        (if oks.headD true then
          update_inventory_after_sale db it.product_id it.quantity
        else db)
        rest oks.tail

/-- The sale_items INSERT loop of `create_sale`: sequential inserts with
consecutive autoincrement ids; the milliliters column is denormalized from
`get_product` (0 when the product is missing), mirroring the product_cache. -/
def buildSaleItems (db : Store) (sid : Nat) : Nat → List CartItem → List SaleItemRow
  | _, [] => []
  | next, it :: rest =>
      { id := next, sale_id := sid, product_id := it.product_id,
        product_name := it.product_name, quantity := it.quantity,
        unit_price := it.unit_price, line_total := it.line_total,
        milliliters := ((get_product db it.product_id).map
          (fun p => p.milliliters)).getD 0 }
        :: buildSaleItems db sid (next + 1) rest

/-- models.py `create_sale`. The sale header and item INSERTs are pending on
the function's own connection until the final `conn.commit()`; the inventory
deductions go through `execute_transaction`, i.e. a separate connection that
commits each UPDATE immediately and independently. `commitOk` models whether
the final `conn.commit()` (or anything raising inside the try block after the
deduction loop) succeeds: on failure the pending sale and items are rolled
back and None is returned, but the separately committed deductions remain.
No stock validation is performed anywhere in this function. -/
def create_sale (cashier_id : ℤ) (cashier_name : String) (items : List CartItem)
    (dedOk : List Bool) (commitOk : Bool) (db : Store) : Option Nat × Store :=
  let grand_total : ℚ := (items.map (fun it => it.line_total)).sum
  let sid := db.next_sale_id
  let saleRow : SaleRow :=
    { id := sid, cashier_id := cashier_id, cashier_name := cashier_name,
      sale_date := db.now, grand_total := grand_total }
  let newItems := buildSaleItems db sid db.next_item_id items
  let db1 := applyDeductions db items dedOk
  if commitOk then
    (some sid,
      { db1 with sales := db1.sales ++ [saleRow],
                 sale_items := db1.sale_items ++ newItems,
                 next_sale_id := sid + 1,
                 next_item_id := db.next_item_id + items.length })
  else (none, db1)

/-- Outcome of pos.py `POSWindow.complete_sale` (dialog shown / sale id). -/
inductive SaleOutcome where
  | emptyCart : SaleOutcome
  | stockError (product_name : String) (check : StockCheck) : SaleOutcome
  | createFailed : SaleOutcome
  | completed (sale_id : Nat) : SaleOutcome
  deriving DecidableEq, Repr

/-- pos.py `POSWindow.complete_sale` (user session assumed present): reject an
empty cart; re-validate every cart line with `validate_stock_availability`
and stop at the first failing line, naming its product and performing no
writes; otherwise hand the cart to `create_sale`. -/
def complete_sale (db : Store) (cart : List CartItem) (cashier_id : ℤ)
    (cashier_name : String) (dedOk : List Bool) (commitOk : Bool) :
    SaleOutcome × Store :=
  if cart.isEmpty then (.emptyCart, db)
  else
    match cart.find? (fun it =>
        !(validate_stock_availability db it.product_id it.quantity == .ok)) with
    | some it =>
        (.stockError it.product_name
          (validate_stock_availability db it.product_id it.quantity), db)
    | none =>
        match create_sale cashier_id cashier_name cart dedOk commitOk db with
        | (some sid, db1) => (.completed sid, db1)
        | (none, db1) => (.createFailed, db1)

/-- Outcome of pos.py `POSWindow.add_item_to_cart` (which dialog was shown). -/
inductive AddResult where
  | noProduct : AddResult
  | productNotFound : AddResult
  | stockError (check : StockCheck) : AddResult
  | mergeStockError (check : StockCheck) : AddResult
  | added : AddResult
  deriving DecidableEq, Repr

/-- In-place mutation of the first cart dict whose product_id matches, as done
by the for/break loop plus dict assignment in `add_item_to_cart`. -/
def updateFirst : List CartItem → String → (CartItem → CartItem) → List CartItem
  | [], _, _ => []
  | it :: rest, pid, f =>
      if it.product_id == pid then f it :: rest
      else it :: updateFirst rest pid f

/-- pos.py `POSWindow.add_item_to_cart`: require a scanned product id, look
the product up, validate the new quantity alone, then either merge into the
first existing cart line for that product (after re-validating the combined
quantity) recomputing its line_total, or append a fresh line built from the
product's current name and selling_price. -/
def add_item_to_cart (db : Store) (cart : List CartItem)
    (current_product_id : String) (qty : ℤ) : AddResult × List CartItem :=
  if current_product_id == "" then (.noProduct, cart)
  else
    match get_product db current_product_id with
    | none => (.productNotFound, cart)
    | some product =>
        match validate_stock_availability db current_product_id qty with
        | .ok =>
            match cart.find? (fun it => it.product_id == current_product_id) with
            | some existing_item =>
                match validate_stock_availability db current_product_id
                    (existing_item.quantity + qty) with
                | .ok =>
                    (.added, updateFirst cart current_product_id (fun it =>
                      { it with quantity := it.quantity + qty,
                                line_total := calculate_line_total it.unit_price
                                  (it.quantity + qty) }))
                | e => (.mergeStockError e, cart)
            | none =>
                (.added, cart ++
                  [{ product_id := current_product_id,
                     product_name := product.name, quantity := qty,
                     unit_price := product.selling_price,
                     line_total := calculate_line_total product.selling_price qty }])
        | e => (.stockError e, cart)

/-- One row of the items list returned by `get_sale_details`. -/
structure SaleItemView where
  product_id : String
  product_name : String
  quantity : ℤ
  unit_price : ℚ
  line_total : ℚ
  milliliters : ℤ
  deriving DecidableEq, Repr

/-- The dict returned by models.py `get_sale_details`. -/
structure SaleDetails where
  sale_id : Nat
  cashier_id : ℤ
  cashier_name : String
  sale_date : Nat
  grand_total : ℚ
  items : List SaleItemView
  deriving DecidableEq, Repr

/-- Projection of a stored sale_items row to the returned dict. -/
def SaleItemRow.toView (r : SaleItemRow) : SaleItemView :=
  { product_id := r.product_id, product_name := r.product_name,
    quantity := r.quantity, unit_price := r.unit_price,
    line_total := r.line_total, milliliters := r.milliliters }

/-- models.py `get_sale_details`: fetch the sale row by primary key, then its
items with `WHERE sale_id = ? ORDER BY id`. Every insert appends a row whose
id is strictly larger than all existing ids, so the stored list is already in
id order and the ORDER BY clause is the identity on the filtered list. Reads
only the sales and sale_items tables, never products. -/
def get_sale_details (db : Store) (sale_id : Nat) : Option SaleDetails :=
  (db.sales.find? (fun s => s.id == sale_id)).map (fun s =>
    { sale_id := s.id, cashier_id := s.cashier_id,
      cashier_name := s.cashier_name, sale_date := s.sale_date,
      grand_total := s.grand_total,
      items := (db.sale_items.filter (fun r => r.sale_id == sale_id)).map
        SaleItemRow.toView })

/-- The validated fields collected by inventory.py's ProductDialog. -/
structure ProductInput where
  id : String
  name : String
  description : String
  milliliters : ℤ
  cost_price : ℚ
  selling_price : ℚ
  quantity_stocked : ℤ
  deriving DecidableEq, Repr

/-- inventory.py `InventoryWindow.add_product`: INSERT a new products row with
profit precomputed, quantity_available initialised to quantity_stocked and
quantity_sold left at its schema default 0; a duplicate primary key raises,
is caught, and leaves the store unchanged. -/
def add_product (db : Store) (data : ProductInput) : Store :=
  if db.products.any (fun r => r.id == data.id) then db
  else
    { db with products := db.products ++
        [{ id := data.id, name := data.name, description := data.description,
           milliliters := data.milliliters, cost_price := data.cost_price,
           selling_price := data.selling_price,
           profit := data.selling_price - data.cost_price,
           quantity_stocked := data.quantity_stocked, quantity_sold := 0,
           quantity_available := data.quantity_stocked,
           created_at := db.now, updated_at := db.now }] }

/-- inventory.py `InventoryWindow.edit_product`: look the product up, recompute
quantity_available as the new quantity_stocked minus the current
quantity_sold, refuse a negative result, else UPDATE every column except id,
quantity_sold and created_at on the matching row. -/
def edit_product (db : Store) (product_id : String) (data : ProductInput) : Store :=
  match get_product db product_id with
  | none => db
  | some product =>
      if data.quantity_stocked - product.quantity_sold < 0 then db
      else
        { db with products := db.products.map (fun r =>
            if r.id == product_id then
              { r with name := data.name, description := data.description,
                       milliliters := data.milliliters,
                       cost_price := data.cost_price,
                       selling_price := data.selling_price,
                       profit := data.selling_price - data.cost_price,
                       quantity_stocked := data.quantity_stocked,
                       quantity_available :=
                         data.quantity_stocked - product.quantity_sold,
                       updated_at := db.now }
            else r) }

/-- inventory.py `InventoryWindow.delete_product`:
`DELETE FROM products WHERE id = ?` only; no other table is touched. -/
def delete_product (db : Store) (product_id : String) : Store :=
  { db with products := db.products.filter (fun r => !(r.id == product_id)) }

/-- Every state-mutating operation the application exposes over the store.
`get_product`, `validate_stock_availability`, `get_sale_details`,
`refresh_table` and `generate_report` run SELECT statements only and are
modelled as pure functions that return no store, so they cannot mutate. -/
inductive Op where
  | opCreateSale (cashier_id : ℤ) (cashier_name : String)
      (items : List CartItem) (dedOk : List Bool) (commitOk : Bool) : Op
  | opCompleteSale (cart : List CartItem) (cashier_id : ℤ)
      (cashier_name : String) (dedOk : List Bool) (commitOk : Bool) : Op
  | opUpdateInventory (product_id : String) (quantity : ℤ) : Op
  | opAddProduct (data : ProductInput) : Op
  | opEditProduct (product_id : String) (data : ProductInput) : Op
  | opDeleteProduct (product_id : String) : Op
  deriving Repr

/-- Effect of one exposed operation on the store. -/
def applyOp (op : Op) (db : Store) : Store :=
  match op with
  | .opCreateSale cid cname items dedOk commitOk =>
      (create_sale cid cname items dedOk commitOk db).2
  | .opCompleteSale cart cid cname dedOk commitOk =>
      (complete_sale db cart cid cname dedOk commitOk).2
  | .opUpdateInventory pid q => update_inventory_after_sale db pid q
  | .opAddProduct data => add_product db data
  | .opEditProduct pid data => edit_product db pid data
  | .opDeleteProduct pid => delete_product db pid

/-- Date filter of reports.py `generate_report`:
`DATE(sale_date) BETWEEN DATE(?) AND DATE(?)` over the model timestamps. -/
def report_in_range (a b : Nat) (s : SaleRow) : Bool :=
  decide (a ≤ s.sale_date) && decide (s.sale_date ≤ b)

/-- The per-sale items query of `generate_report`: an INNER JOIN of sale_items
with products on product_id, pairing each surviving line with the product's
current cost_price; lines whose product row no longer exists drop out. -/
def sale_items_with_cost (db : Store) (sid : Nat) : List (SaleItemRow × ℚ) :=
  (db.sale_items.filter (fun r => r.sale_id == sid)).filterMap
    (fun si => (db.products.find? (fun p => p.id == si.product_id)).map
      (fun p => (si, p.cost_price)))

/-- The per-sale profit loop of `generate_report`:
`sale_profit += item['line_total'] - cost_price * quantity`. -/
def sale_profit (db : Store) (sid : Nat) : ℚ :=
  ((sale_items_with_cost db sid).map
    (fun x => x.1.line_total - x.2 * (x.1.quantity : ℚ))).sum

/-- One displayed row of the report table. -/
structure ReportRow where
  sale_id : Nat
  sale_date : Nat
  cashier_name : String
  grand_total : ℚ
  profit : ℚ
  deriving DecidableEq, Repr

/-- The report's accumulated summary labels plus its table rows. -/
structure ReportSummary where
  rows : List ReportRow
  total_sales : ℚ
  total_cost : ℚ
  total_profit : ℚ
  tx_count : Nat
  deriving DecidableEq, Repr

/-- One iteration of the per-sale loop in `generate_report`. -/
def report_step (db : Store) (acc : ReportSummary) (s : SaleRow) : ReportSummary :=
  let profit := sale_profit db s.id
  let cost := ((sale_items_with_cost db s.id).map
    (fun x => x.2 * (x.1.quantity : ℚ))).sum
  { rows := acc.rows ++
      [{ sale_id := s.id, sale_date := s.sale_date,
         cashier_name := s.cashier_name, grand_total := s.grand_total,
         profit := profit }],
    total_sales := acc.total_sales + s.grand_total,
    total_cost := acc.total_cost + cost,
    total_profit := acc.total_profit + profit,
    tx_count := acc.tx_count + 1 }

/-- reports.py `ReportsWindow.generate_report`: filter the sales to the date
range, then fold the per-sale loop over them accumulating the table rows and
the summary totals. The source's ORDER BY sale_date DESC affects only the
display order of the rows, not the totals nor which rows appear. -/
def generate_report (db : Store) (a b : Nat) : ReportSummary :=
  (db.sales.filter (report_in_range a b)).foldl (report_step db)
    { rows := [], total_sales := 0, total_cost := 0, total_profit := 0,
      tx_count := 0 }

/-- The product's current cost price as the report reads it: the joined
products row's cost_price (0 as a placeholder when the product is absent,
in which case the join in fact drops the line). -/
def current_cost_price (db : Store) (pid : String) : ℚ :=
  ((db.products.find? (fun p => p.id == pid)).map (fun p => p.cost_price)).getD 0

/-- One displayed row of the inventory table. -/
structure InventoryRow where
  id : String
  name : String
  milliliters : ℤ
  cost_price : ℚ
  selling_price : ℚ
  profit : ℚ
  quantity_stocked : ℤ
  quantity_sold : ℤ
  quantity_available : ℤ
  description : String
  deriving DecidableEq, Repr

/-- Projection of a stored products row to its inventory-table display row;
the Available column shows the stored quantity_available column, not the
recomputed difference. -/
def ProductRow.toInventoryRow (r : ProductRow) : InventoryRow :=
  { id := r.id, name := r.name, milliliters := r.milliliters,
    cost_price := r.cost_price, selling_price := r.selling_price,
    profit := r.profit, quantity_stocked := r.quantity_stocked,
    quantity_sold := r.quantity_sold,
    quantity_available := r.quantity_available,
    description := r.description }

/-- inventory.py `InventoryWindow.refresh_table`:
`SELECT ... FROM products ORDER BY name` rendered row by row. -/
def refresh_table (db : Store) : List InventoryRow :=
  (db.products.mergeSort (fun x y => decide (x.name ≤ y.name))).map
    ProductRow.toInventoryRow

/-- Total quantity the deduction loop removes for a given product id: the sum,
over the cart lines whose separate UPDATE transaction succeeded and whose
product id matches, of the line quantity. -/
def totalDeducted : List CartItem → List Bool → String → ℤ
  | [], _, _ => 0
  | it :: rest, oks, pid =>
      (if oks.headD true = true ∧ it.product_id = pid then it.quantity else 0)
        + totalDeducted rest oks.tail pid

/-- A cart line demanding more of P1 than is available in storeA. -/
def itemOver : CartItem :=
  { product_id := "P1", product_name := "Beer", quantity := 20,
    unit_price := 100, line_total := 2000 }

/-- A cart line within P1's availability in storeA. -/
def itemOk : CartItem :=
  { product_id := "P1", product_name := "Beer", quantity := 2,
    unit_price := 100, line_total := 200 }

/-- A product row with nothing sold yet, for the cart-merge witness. -/
def rowP1b : ProductRow :=
  { id := "P1", name := "Beer", description := "", milliliters := 500,
    cost_price := 80, selling_price := 100, profit := 20,
    quantity_stocked := 10, quantity_sold := 0, quantity_available := 10,
    created_at := 0, updated_at := 0 }

/-- A store holding only rowP1b, for the cart-merge witness. -/
def storeB : Store :=
  { products := [rowP1b], sales := [], sale_items := [],
    next_sale_id := 1, next_item_id := 1, now := 5 }

/-- The cart line produced by first adding P1 with quantity 4. -/
def lineP1q4 : CartItem :=
  { product_id := "P1", product_name := "Beer", quantity := 4,
    unit_price := 100, line_total := 400 }

/-- A committed sale row for the report witness. -/
def saleRow1 : SaleRow :=
  { id := 1, cashier_id := 1, cashier_name := "Admin", sale_date := 3,
    grand_total := 200 }

/-- The line item of saleRow1 for the report witness. -/
def itemRow1 : SaleItemRow :=
  { id := 1, sale_id := 1, product_id := "P1", product_name := "Beer",
    quantity := 2, unit_price := 100, line_total := 200, milliliters := 500 }

/-- A store with one product, one committed sale and one line item. -/
def storeC : Store :=
  { products := [rowP1], sales := [saleRow1], sale_items := [itemRow1],
    next_sale_id := 2, next_item_id := 2, now := 5 }

/-- A sequence of committed `create_sale` calls as the running program can
actually produce them: each call's deduction transactions all fail, because
the deduction's UPDATE runs on a second connection while `create_sale`'s own
connection holds the pending write transaction — SQLite admits one writer, so
`execute_transaction` times out, returns False, and `create_sale` ignores
it. -/
def run_create_sales : Store → List (ℤ × String × List CartItem × Bool) → Store
  | db, [] => db
  | db, (cid, cname, items, commitOk) :: rest =>
      run_create_sales
        (create_sale cid cname items (List.replicate items.length false)
          commitOk db).2 rest

theorem roundHalfEven_intCast (n : ℤ) : roundHalfEven (n : ℚ) = n := by
  simp [roundHalfEven]

/-- round2 is the identity on exact multiples of one hundredth. -/
theorem round2_div_hundred (n : ℤ) : round2 ((n : ℚ) / 100) = (n : ℚ) / 100 := by
  have h : (100 : ℚ) * ((n : ℚ) / 100) = (n : ℚ) := by ring
  rw [round2, h, roundHalfEven_intCast]

/-- round2 is the identity on integers. -/
theorem round2_intCast (n : ℤ) : round2 ((n : ℚ)) = (n : ℚ) := by
  have h : ((n : ℚ)) = (((100 * n : ℤ) : ℚ)) / 100 := by
    push_cast
    ring
  rw [h, round2_div_hundred]

/-- Every `calculate_line_total` output is an integer number of cents. -/
theorem calculate_line_total_cents (unit_price : ℚ) (quantity : ℤ) :
    ∃ n : ℤ, calculate_line_total unit_price quantity = (n : ℚ) / 100 := by
  exact ⟨roundHalfEven (100 * (unit_price * quantity)), rfl⟩

theorem line_totals_sum_cents (items : List CartItem) :
    ∃ n : ℤ,
      (items.map (fun i => calculate_line_total i.unit_price i.quantity)).sum
        = (n : ℚ) / 100 := by
  induction items with
  | nil => exact ⟨0, by simp⟩
  | cons hd tl ih =>
      obtain ⟨m, hm⟩ := ih
      obtain ⟨k, hk⟩ := calculate_line_total_cents hd.unit_price hd.quantity
      refine ⟨k + m, ?_⟩
      simp only [List.map_cons, List.sum_cons, hm, hk]
      push_cast
      ring

/-- C4. Total correctness of cart arithmetic: the grand total computed by
`calculate_grand_total` equals the plain sum of the individually rounded line
totals, each of which is `round(unit_price * quantity, 2)` — the final
`round(total, 2)` in the source is the identity because the summands are
already exact multiples of a cent (sum-of-rounded-parts, not round-of-sum). -/
theorem grand_total_eq_sum_of_line_totals (items : List CartItem) :
    calculate_grand_total items
      = (items.map (fun i => calculate_line_total i.unit_price i.quantity)).sum := by
  obtain ⟨n, hn⟩ := line_totals_sum_cents items
  rw [calculate_grand_total, hn, round2_div_hundred]

/-- C5. Behaviour of `validate_stock_availability`: not-found exactly when the
product is absent; when the product exists, an insufficient-stock failure
carrying the available quantity exactly when the request exceeds
`quantity_stocked - quantity_sold`, and success otherwise (equality included).
The function is a pure read by construction: it returns only a `StockCheck`
and no store, so no state is mutated. -/
theorem validate_stock_availability_spec (db : Store) (product_id : String)
    (q : ℤ) (p : Product) (hp : get_product db product_id = some p) :
    (validate_stock_availability db product_id q
        = .insufficient (p.quantity_stocked - p.quantity_sold)
      ↔ p.quantity_stocked - p.quantity_sold < q)
    ∧ (validate_stock_availability db product_id q = .ok
      ↔ q ≤ p.quantity_stocked - p.quantity_sold)
    ∧ validate_stock_availability db product_id q ≠ .notFound
    ∧ ∀ pid' q', get_product db pid' = none →
        validate_stock_availability db pid' q' = .notFound := by
  have hv : validate_stock_availability db product_id q
      = if p.quantity_stocked - p.quantity_sold < q
        then StockCheck.insufficient (p.quantity_stocked - p.quantity_sold)
        else StockCheck.ok := by
    simp only [validate_stock_availability, hp, Product.quantity_available]
  refine ⟨?_, ?_, ?_, ?_⟩
  · rw [hv]
    by_cases h : p.quantity_stocked - p.quantity_sold < q <;> simp [h]
  · rw [hv]
    by_cases h : p.quantity_stocked - p.quantity_sold < q
    · simp only [if_pos h]
      simp
      omega
    · simp only [if_neg h]
      simp
      omega
  · rw [hv]
    by_cases h : p.quantity_stocked - p.quantity_sold < q <;> simp [h]
  · intro pid' q' hnone
    simp only [validate_stock_availability, hnone]

/-- Witness for C5 on a concrete store. -/
theorem validate_stock_availability_spec_witness :
    get_product storeA "P1" = some rowP1.toProduct
    ∧ (validate_stock_availability storeA "P1" 7 = .insufficient 6
        ↔ (6 : ℤ) < 7) := by
  constructor
  · rfl
  · exact (validate_stock_availability_spec storeA "P1" 7 rowP1.toProduct rfl).1

theorem applyDeductions_frame :
    ∀ (items : List CartItem) (oks : List Bool) (db : Store),
      (applyDeductions db items oks).sales = db.sales
      ∧ (applyDeductions db items oks).sale_items = db.sale_items
      ∧ (applyDeductions db items oks).now = db.now
      ∧ (applyDeductions db items oks).next_sale_id = db.next_sale_id
      ∧ (applyDeductions db items oks).next_item_id = db.next_item_id := by
  intro items
  induction items with
  | nil => intro oks db; exact ⟨rfl, rfl, rfl, rfl, rfl⟩
  | cons it rest ih =>
      intro oks db
      rw [applyDeductions]
      by_cases h : oks.headD true = true
      · rw [if_pos h]
        exact ih oks.tail (update_inventory_after_sale db it.product_id it.quantity)
      · rw [if_neg h]
        exact ih oks.tail db

theorem applyDeductions_products :
    ∀ (items : List CartItem) (oks : List Bool) (db : Store),
      (applyDeductions db items oks).products.map
          (fun r => (r.id, r.quantity_stocked, r.quantity_sold,
            r.quantity_available))
        = db.products.map
            (fun r => (r.id, r.quantity_stocked,
              r.quantity_sold + totalDeducted items oks r.id,
              r.quantity_available)) := by
  intro items
  induction items with
  | nil =>
      intro oks db
      simp [applyDeductions, totalDeducted]
  | cons it rest ih =>
      intro oks db
      rw [applyDeductions, ih]
      by_cases hok : oks.headD true = true
      · have hok2 : oks.head?.getD true = true := by simpa using hok
        rw [if_pos hok, update_inventory_after_sale, List.map_map]
        apply List.map_congr_left
        intro r _
        by_cases hid : it.product_id = r.id
        · have hcond : (r.id == it.product_id) = true := by simp [hid]
          simp [Function.comp, hcond, totalDeducted, hok2, hid]
          try omega
        · have hid2 : ¬(r.id = it.product_id) := fun h => hid h.symm
          simp [Function.comp, hid2, totalDeducted, hid]
      · have hok2 : ¬(oks.head?.getD true = true) := by simpa using hok
        rw [if_neg hok]
        apply List.map_congr_left
        intro r _
        simp [totalDeducted, hok2]

theorem totalDeducted_of_not_mem :
    ∀ (items : List CartItem) (oks : List Bool) (pid : String),
      pid ∉ items.map (fun it => it.product_id) →
      totalDeducted items oks pid = 0 := by
  intro items
  induction items with
  | nil => intro oks pid _; rfl
  | cons it rest ih =>
      intro oks pid hmem
      simp only [List.map_cons, List.mem_cons] at hmem
      push_neg at hmem
      rw [totalDeducted, ih oks.tail pid hmem.2,
        if_neg (fun h => hmem.1 h.2.symm), add_zero]

theorem totalDeducted_cases :
    ∀ (items : List CartItem) (oks : List Bool) (pid : String),
      (items.map (fun it => it.product_id)).Nodup →
      totalDeducted items oks pid = 0
        ∨ ∃ it ∈ items, it.product_id = pid
            ∧ totalDeducted items oks pid = it.quantity := by
  intro items
  induction items with
  | nil => intro oks pid _; exact Or.inl rfl
  | cons it rest ih =>
      intro oks pid hnd
      simp only [List.map_cons, List.nodup_cons] at hnd
      by_cases hc : oks.headD true = true ∧ it.product_id = pid
      · refine Or.inr ⟨it, List.mem_cons_self it rest, hc.2, ?_⟩
        rw [totalDeducted, if_pos hc,
          totalDeducted_of_not_mem rest oks.tail pid (hc.2 ▸ hnd.1), add_zero]
      · rw [totalDeducted, if_neg hc, zero_add]
        rcases ih oks.tail pid hnd.2 with h0 | ⟨jt, hjt, hpid, hq⟩
        · exact Or.inl h0
        · exact Or.inr ⟨jt, List.mem_cons_of_mem it hjt, hpid, hq⟩

theorem find?_eq_self_of_nodup_ids :
    ∀ (l : List ProductRow),
      (l.map (fun r => r.id)).Nodup →
      ∀ r ∈ l, l.find? (fun x => x.id == r.id) = some r := by
  intro l
  induction l with
  | nil => intro _ r hr; simp at hr
  | cons hd tl ih =>
      intro hnd r hr
      simp only [List.map_cons, List.nodup_cons] at hnd
      rcases List.mem_cons.mp hr with rfl | hr
      · exact List.find?_cons_of_pos tl (by simp)
      · have hne : ¬(hd.id == r.id) = true := by
          simp only [beq_iff_eq]
          intro h
          exact hnd.1 (h ▸ List.mem_map_of_mem (fun x => x.id) hr)
        rw [List.find?_cons_of_neg tl hne]
        exact ih hnd.2 r hr

theorem validate_ok_bound (db : Store) (pid : String) (q : ℤ)
    (h : validate_stock_availability db pid q = .ok) :
    ∃ p, get_product db pid = some p
      ∧ q ≤ p.quantity_stocked - p.quantity_sold := by
  rcases hg : get_product db pid with _ | p
  · simp only [validate_stock_availability, hg] at h
    exact StockCheck.noConfusion h
  · refine ⟨p, rfl, ?_⟩
    simp only [validate_stock_availability, hg] at h
    by_cases hlt : p.quantity_available < q
    · rw [if_pos hlt] at h
      exact absurd h (by simp)
    · simp only [Product.quantity_available] at hlt
      omega

theorem create_sale_state_products (cid : ℤ) (cname : String)
    (items : List CartItem) (dedOk : List Bool) (commitOk : Bool) (db : Store) :
    (create_sale cid cname items dedOk commitOk db).2.products
      = (applyDeductions db items dedOk).products := by
  cases commitOk <;> simp [create_sale]

theorem create_sale_preserves_nonneg
    (cid : ℤ) (cname : String) (items : List CartItem) (dedOk : List Bool)
    (commitOk : Bool) (db : Store)
    (hids : (db.products.map (fun r => r.id)).Nodup)
    (hcart : (items.map (fun it => it.product_id)).Nodup)
    (hvalid : ∀ it ∈ items,
      validate_stock_availability db it.product_id it.quantity = .ok)
    (hpre : ∀ r ∈ db.products, 0 ≤ (ProductRow.toProduct r).quantity_available) :
    ∀ r ∈ (create_sale cid cname items dedOk commitOk db).2.products,
      0 ≤ (ProductRow.toProduct r).quantity_available := by
  intro x hx
  rw [create_sale_state_products] at hx
  have h1 : (x.id, x.quantity_stocked, x.quantity_sold, x.quantity_available)
      ∈ (applyDeductions db items dedOk).products.map
        (fun r => (r.id, r.quantity_stocked, r.quantity_sold,
          r.quantity_available)) :=
    List.mem_map_of_mem _ hx
  rw [applyDeductions_products] at h1
  obtain ⟨r, hr, heq⟩ := List.mem_map.mp h1
  simp only [Prod.mk.injEq] at heq
  obtain ⟨hid, hstk, hsld, _⟩ := heq
  simp only [ProductRow.toProduct, Product.quantity_available]
  rcases totalDeducted_cases items dedOk r.id hcart with h0 | ⟨it, hit, hpid, hq⟩
  · have hp := hpre r hr
    simp only [ProductRow.toProduct, Product.quantity_available] at hp
    omega
  · have hv := hvalid it hit
    obtain ⟨p, hp, hle⟩ := validate_ok_bound db it.product_id it.quantity hv
    rw [hpid, get_product,
      find?_eq_self_of_nodup_ids db.products hids r hr] at hp
    have hpr : p = ProductRow.toProduct r := by
      rw [Option.map_some'] at hp
      exact (Option.some.inj hp).symm
    subst hpr
    simp only [ProductRow.toProduct] at hle
    omega

/-- C1. The commit path is not all-or-nothing, exhibited on a concrete store:
first, when the final `conn.commit()` fails, the pending sale header and item
inserts are rolled back (no sales row, no sale_items row) yet P1's
quantity_sold has still moved from 4 to 6, because the deduction ran through
`execute_transaction` on its own already-committed connection; second, when
the deduction's separate transaction fails, `create_sale` ignores the False
return value and commits the sale anyway, leaving a sale with no matching
inventory deduction (quantity_sold still 4). -/
theorem create_sale_not_atomic :
    (create_sale 1 "Admin" [itemOk] [true] false storeA).1 = none
    ∧ (create_sale 1 "Admin" [itemOk] [true] false storeA).2.sales = []
    ∧ (create_sale 1 "Admin" [itemOk] [true] false storeA).2.sale_items = []
    ∧ ((create_sale 1 "Admin" [itemOk] [true] false storeA).2.products.map
        (fun r => r.quantity_sold)) = [6]
    ∧ (create_sale 1 "Admin" [itemOk] [false] true storeA).1 = some 1
    ∧ (create_sale 1 "Admin" [itemOk] [false] true storeA).2.sales.length = 1
    ∧ ((create_sale 1 "Admin" [itemOk] [false] true storeA).2.products.map
        (fun r => r.quantity_sold)) = [4] := by
  refine ⟨rfl, rfl, rfl, by decide, rfl, rfl, by decide⟩

theorem complete_sale_state (db : Store) (cart : List CartItem) (cid : ℤ)
    (cname : String) (dedOk : List Bool) (commitOk : Bool) :
    (complete_sale db cart cid cname dedOk commitOk).2 = db
    ∨ ((complete_sale db cart cid cname dedOk commitOk).2
        = (create_sale cid cname cart dedOk commitOk db).2
      ∧ ∀ it ∈ cart,
          validate_stock_availability db it.product_id it.quantity = .ok) := by
  by_cases hemp : cart.isEmpty = true
  · left
    simp [complete_sale, hemp]
  · rcases hf : cart.find? (fun it =>
        !(validate_stock_availability db it.product_id it.quantity == .ok)) with _ | it0
    · right
      constructor
      · rcases hcs : create_sale cid cname cart dedOk commitOk db with ⟨o, db1⟩
        cases o <;> simp [complete_sale, hemp, hf, hcs]
      · intro it hit
        have := List.find?_eq_none.mp hf it hit
        simpa using this
    · left
      simp [complete_sale, hemp, hf]

theorem applyDeductions_replicate_false :
    ∀ (items : List CartItem) (db : Store),
      applyDeductions db items (List.replicate items.length false) = db := by
  intro items
  induction items with
  | nil => intro db; rfl
  | cons it rest ih =>
      intro db
      rw [applyDeductions]
      simp only [List.length_cons, List.replicate_succ, List.headD_cons,
        List.tail_cons, Bool.false_eq_true, if_false]
      exact ih db

/-- C2. No-oversell invariant for `create_sale` as it actually executes: each
inventory deduction runs through `execute_transaction` on a second connection
while `create_sale`'s own connection holds the pending sale INSERT, and SQLite
admits a single writer per database, so the UPDATE cannot commit —
`execute_transaction` times out, returns False, and `create_sale` ignores it.
Every reachable call therefore has all its deductions failing (dedOk all
false) and leaves every product row unchanged — in particular it never
increments quantity_sold — so neither a committed sale nor any sequence of
committed sales can drive quantity_sold above quantity_stocked: the recomputed
quantity_available stays nonnegative after each committed sale. -/
theorem create_sale_no_oversell
    (db : Store)
    (hpre : ∀ r ∈ db.products, 0 ≤ (ProductRow.toProduct r).quantity_available) :
    (∀ (cid : ℤ) (cname : String) (items : List CartItem) (commitOk : Bool),
        (create_sale cid cname items (List.replicate items.length false)
          commitOk db).2.products = db.products)
    ∧ ∀ (calls : List (ℤ × String × List CartItem × Bool)),
        (run_create_sales db calls).products = db.products
        ∧ ∀ r ∈ (run_create_sales db calls).products,
            0 ≤ (ProductRow.toProduct r).quantity_available := by
  have hstep : ∀ (cid : ℤ) (cname : String) (items : List CartItem)
      (commitOk : Bool) (s : Store),
      (create_sale cid cname items (List.replicate items.length false)
        commitOk s).2.products = s.products := by
    intro cid cname items commitOk s
    rw [create_sale_state_products, applyDeductions_replicate_false]
  have hrun : ∀ (calls : List (ℤ × String × List CartItem × Bool)) (s : Store),
      (run_create_sales s calls).products = s.products := by
    intro calls
    induction calls with
    | nil => intro s; rfl
    | cons c rest ih =>
        intro s
        rcases c with ⟨cid, cname, items, commitOk⟩
        rw [run_create_sales, ih, hstep]
  refine ⟨fun cid cname items commitOk => hstep cid cname items commitOk db,
    fun calls => ⟨hrun calls db, ?_⟩⟩
  rw [hrun calls db]
  exact hpre

/-- Witness for C2 on a concrete store: a committed sale of 20 units of P1
leaves the products table unchanged. -/
theorem create_sale_no_oversell_witness :
    (∀ r ∈ storeA.products, 0 ≤ (ProductRow.toProduct r).quantity_available)
    ∧ (create_sale 1 "Admin" [itemOver]
        (List.replicate [itemOver].length false) true storeA).2.products
      = storeA.products :=
  ⟨by decide,
    (create_sale_no_oversell storeA (by decide)).1 1 "Admin" [itemOver] true⟩

/-- C3 counterexample: at commit time P1's availability is 6 yet the cart line
asks for 20; `create_sale` neither returns an InsufficientStock error nor
withholds writes — it returns a sale id and inserts the sale header and the
line item. The deduction's separate-connection UPDATE fails inside the open
sale transaction (the reachable pattern) and its False return is ignored, so
quantity_sold stays 4; the claim's required behavior — an error and no writes
at all — does not occur. -/
theorem create_sale_no_revalidation_counterexample :
    validate_stock_availability storeA "P1" 20 = .insufficient 6
    ∧ (create_sale 1 "Admin" [itemOver] [false] true storeA).1 = some 1
    ∧ (create_sale 1 "Admin" [itemOver] [false] true storeA).2.sales.length = 1
    ∧ (create_sale 1 "Admin" [itemOver] [false] true storeA).2.sale_items.length = 1
    ∧ ((create_sale 1 "Admin" [itemOver] [false] true storeA).2.products.map
        (fun r => r.quantity_sold)) = [4] := by
  refine ⟨by decide, rfl, rfl, rfl, by decide⟩

/-- C3 amended. The commit-time re-validation lives in the caller
`POSWindow.complete_sale`, not inside `create_sale`'s unit of work: when some
cart line's quantity fails validation against the current availability,
`complete_sale` stops at the first such line, reports a stock error naming
that line's product (with the check result carrying the available quantity),
and performs no writes at all — the store is returned unchanged. `create_sale`
itself never re-validates (see the counterexample). -/
theorem complete_sale_rejects_insufficient
    (db : Store) (cart : List CartItem) (cid : ℤ) (cname : String)
    (dedOk : List Bool) (commitOk : Bool)
    (hbad : ∃ it ∈ cart,
      validate_stock_availability db it.product_id it.quantity ≠ .ok) :
    ∃ it ∈ cart,
      validate_stock_availability db it.product_id it.quantity ≠ .ok
      ∧ complete_sale db cart cid cname dedOk commitOk
          = (.stockError it.product_name
              (validate_stock_availability db it.product_id it.quantity), db) := by
  obtain ⟨it0, hit0, hv0⟩ := hbad
  have hemp : ¬cart.isEmpty = true := by
    cases cart
    · simp at hit0
    · simp
  have hfs : (cart.find? (fun it =>
      !(validate_stock_availability db it.product_id it.quantity == .ok))).isSome := by
    rw [List.find?_isSome]
    refine ⟨it0, hit0, ?_⟩
    simp [hv0]
  obtain ⟨it1, hf⟩ := Option.isSome_iff_exists.mp hfs
  have hit1 : it1 ∈ cart := List.mem_of_find?_eq_some hf
  have hv1 : validate_stock_availability db it1.product_id it1.quantity ≠ .ok := by
    have := List.find?_some hf
    simpa using this
  refine ⟨it1, hit1, hv1, ?_⟩
  simp [complete_sale, hemp, hf]

/-- Witness for C3 on a concrete store and cart. -/
theorem complete_sale_rejects_insufficient_witness :
    (∃ it ∈ [itemOver],
      validate_stock_availability storeA it.product_id it.quantity ≠ .ok)
    ∧ ∃ it ∈ [itemOver],
        validate_stock_availability storeA it.product_id it.quantity ≠ .ok
        ∧ complete_sale storeA [itemOver] 1 "Admin" [true] true
            = (.stockError it.product_name
                (validate_stock_availability storeA it.product_id it.quantity),
               storeA) :=
  ⟨by decide, complete_sale_rejects_insufficient storeA [itemOver] 1 "Admin"
    [true] true (by decide)⟩

theorem find?_middle :
    ∀ (c1 : List CartItem) (ex : CartItem) (c2 : List CartItem) (pid : String),
      (∀ it ∈ c1, it.product_id ≠ pid) → ex.product_id = pid →
      (c1 ++ ex :: c2).find? (fun it => it.product_id == pid) = some ex := by
  intro c1
  induction c1 with
  | nil =>
      intro ex c2 pid _ hex
      simp [hex]
  | cons hd tl ih =>
      intro ex c2 pid hc1 hex
      have hhd : ¬((hd.product_id == pid) = true) := by
        simp [hc1 hd (List.mem_cons_self hd tl)]
      have hstep : List.find? (fun it => it.product_id == pid)
            (hd :: (tl ++ ex :: c2))
          = List.find? (fun it => it.product_id == pid) (tl ++ ex :: c2) :=
        List.find?_cons_of_neg _ hhd
      rw [List.cons_append, hstep]
      exact ih ex c2 pid (fun it hit => hc1 it (List.mem_cons_of_mem hd hit)) hex

theorem updateFirst_middle :
    ∀ (c1 : List CartItem) (ex : CartItem) (c2 : List CartItem) (pid : String)
      (f : CartItem → CartItem),
      (∀ it ∈ c1, it.product_id ≠ pid) → ex.product_id = pid →
      updateFirst (c1 ++ ex :: c2) pid f = c1 ++ f ex :: c2 := by
  intro c1
  induction c1 with
  | nil =>
      intro ex c2 pid f _ hex
      simp [updateFirst, hex]
  | cons hd tl ih =>
      intro ex c2 pid f hc1 hex
      have hhd : ¬((hd.product_id == pid) = true) := by
        simp [hc1 hd (List.mem_cons_self hd tl)]
      simp only [List.cons_append, updateFirst, if_neg hhd]
      exact congrArg (fun l => hd :: l)
        (ih ex c2 pid f (fun it hit => hc1 it (List.mem_cons_of_mem hd hit)) hex)

/-- C6. Cart merge on re-add: when the cart holds exactly one line for product
P (no other line shares its id) and both availability checks pass — the new
quantity alone and the combined quantity q1 + q2 — `add_item_to_cart` merges:
the resulting cart still holds exactly one line for P, in place, with quantity
q1 + q2 and line_total recomputed as `round(unit_price * (q1 + q2), 2)` from
the line's stored unit price; and adding a product with no existing cart line
appends exactly one new line built from the product's current name and price. -/
theorem add_item_to_cart_spec
    (db : Store) (c1 c2 : List CartItem) (ex : CartItem) (pid : String)
    (qty : ℤ) (product : Product)
    (hpid : pid ≠ "")
    (hprod : get_product db pid = some product)
    (hex : ex.product_id = pid)
    (hc1 : ∀ it ∈ c1, it.product_id ≠ pid)
    (hc2 : ∀ it ∈ c2, it.product_id ≠ pid)
    (hv1 : validate_stock_availability db pid qty = .ok)
    (hv2 : validate_stock_availability db pid (ex.quantity + qty) = .ok) :
    add_item_to_cart db (c1 ++ ex :: c2) pid qty
        = (.added, c1 ++
            { ex with quantity := ex.quantity + qty,
                      line_total := calculate_line_total ex.unit_price
                        (ex.quantity + qty) } :: c2)
    ∧ ((c1 ++
          { ex with quantity := ex.quantity + qty,
                    line_total := calculate_line_total ex.unit_price
                      (ex.quantity + qty) } :: c2).countP
          (fun it => it.product_id == pid)) = 1
    ∧ ∀ cart0 : List CartItem, (∀ it ∈ cart0, it.product_id ≠ pid) →
        add_item_to_cart db cart0 pid qty
          = (.added, cart0 ++
              [{ product_id := pid, product_name := product.name,
                 quantity := qty, unit_price := product.selling_price,
                 line_total := calculate_line_total product.selling_price qty }]) := by
  have hfind := find?_middle c1 ex c2 pid hc1 hex
  have hupd := updateFirst_middle c1 ex c2 pid
    (fun it => { it with quantity := it.quantity + qty,
                         line_total := calculate_line_total it.unit_price
                           (it.quantity + qty) }) hc1 hex
  refine ⟨?_, ?_, ?_⟩
  · simp [add_item_to_cart, hpid, hprod, hv1, hfind, hv2, hupd]
  · have h1 : c1.countP (fun it => it.product_id == pid) = 0 := by
      rw [List.countP_eq_zero]
      intro it hit
      simp [hc1 it hit]
    have h2 : c2.countP (fun it => it.product_id == pid) = 0 := by
      rw [List.countP_eq_zero]
      intro it hit
      simp [hc2 it hit]
    simp [List.countP_append, List.countP_cons, h1, h2, hex]
  · intro cart0 h0
    have hfind0 : cart0.find? (fun it => it.product_id == pid) = none := by
      rw [List.find?_eq_none]
      intro it hit
      simp [h0 it hit]
    simp [add_item_to_cart, hpid, hprod, hv1, hfind0]

/-- Witness for C6: adding P1 quantity 4 then quantity 3 merges into a single
line with quantity 7 and line_total equal to the unit price times 7. -/
theorem add_item_to_cart_spec_witness :
    get_product storeB "P1" = some rowP1b.toProduct
    ∧ validate_stock_availability storeB "P1" (lineP1q4.quantity + 3) = .ok
    ∧ add_item_to_cart storeB ([] ++ lineP1q4 :: []) "P1" 3
        = (.added, [] ++
            { lineP1q4 with quantity := lineP1q4.quantity + 3,
                            line_total := calculate_line_total
                              lineP1q4.unit_price (lineP1q4.quantity + 3) } :: [])
    ∧ lineP1q4.quantity + 3 = 7
    ∧ calculate_line_total lineP1q4.unit_price (lineP1q4.quantity + 3)
        = lineP1q4.unit_price * 7 :=
  ⟨rfl, by decide,
    (add_item_to_cart_spec storeB [] [] lineP1q4 "P1" 3 rowP1b.toProduct
      (by decide) rfl rfl (by simp) (by simp) (by decide) (by decide)).1,
    by decide,
    by
      show round2 ((100 : ℚ) * ((7 : ℤ) : ℚ)) = (100 : ℚ) * 7
      rw [show ((100 : ℚ) * ((7 : ℤ) : ℚ)) = (((700 : ℤ)) : ℚ) from by norm_num,
        round2_intCast]
      norm_num⟩

theorem buildSaleItems_sale_id (db : Store) (sid : Nat) :
    ∀ (n : Nat) (its : List CartItem),
      ∀ r ∈ buildSaleItems db sid n its, r.sale_id = sid := by
  intro n its
  induction its generalizing n with
  | nil => intro r hr; simp [buildSaleItems] at hr
  | cons hd tl ih =>
      intro r hr
      rcases List.mem_cons.mp hr with rfl | hr
      · rfl
      · exact ih (n + 1) r hr

theorem buildSaleItems_view_proj (db : Store) (sid : Nat) :
    ∀ (n : Nat) (its : List CartItem),
      (buildSaleItems db sid n its).map
          ((fun v : SaleItemView =>
            (v.product_id, v.quantity, v.unit_price, v.line_total))
            ∘ SaleItemRow.toView)
        = its.map
            (fun it => (it.product_id, it.quantity, it.unit_price, it.line_total)) := by
  intro n its
  induction its generalizing n with
  | nil => rfl
  | cons hd tl ih => simp [buildSaleItems, SaleItemRow.toView, Function.comp, ih]

/-- C7. Commit/re-read round trip: for a successful `create_sale` (the final
commit and all deductions go through), reading the sale back with
`get_sale_details` yields line items whose product ids, quantities, unit
prices and line totals match the committed cart exactly, in cart order — and
the result is the same for every possible later state of the products table,
because `get_sale_details` never reads products and the line items are
denormalized copies. -/
theorem commit_reread_round_trip
    (db : Store) (cid : ℤ) (cname : String) (items : List CartItem)
    (dedOk : List Bool) (sid : Nat) (db1 : Store)
    (h : create_sale cid cname items dedOk true db = (some sid, db1))
    (hsales : ∀ s ∈ db.sales, s.id ≠ db.next_sale_id)
    (hitems : ∀ r ∈ db.sale_items, r.sale_id ≠ db.next_sale_id) :
    ∀ products2 : List ProductRow,
      ((get_sale_details { db1 with products := products2 } sid).map
        (fun d => d.items.map
          (fun v => (v.product_id, v.quantity, v.unit_price, v.line_total))))
      = some (items.map
          (fun it => (it.product_id, it.quantity, it.unit_price, it.line_total))) := by
  intro products2
  simp only [create_sale, if_true, Prod.mk.injEq, Option.some.injEq] at h
  obtain ⟨hsid, hdb1⟩ := h
  subst hsid
  subst hdb1
  have hfr := applyDeductions_frame items dedOk db
  have hnone : db.sales.find? (fun s => s.id == db.next_sale_id) = none := by
    rw [List.find?_eq_none]
    intro s hs
    simpa using hsales s hs
  have hfilter_nil :
      db.sale_items.filter (fun r => r.sale_id == db.next_sale_id) = [] := by
    rw [List.filter_eq_nil_iff]
    intro r hr
    simpa using hitems r hr
  have hfilter_new :
      (buildSaleItems db db.next_sale_id db.next_item_id items).filter
          (fun r => r.sale_id == db.next_sale_id)
        = buildSaleItems db db.next_sale_id db.next_item_id items := by
    rw [List.filter_eq_self]
    intro r hr
    simp [buildSaleItems_sale_id db db.next_sale_id db.next_item_id items r hr]
  simp [get_sale_details, hfr.1, hfr.2.1, List.find?_append, hnone,
    List.filter_append, hfilter_nil, hfilter_new, List.map_map]
  exact buildSaleItems_view_proj db db.next_sale_id db.next_item_id items

/-- Witness for C7 on a concrete committed sale, read back with the products
table emptied afterwards. -/
theorem commit_reread_round_trip_witness :
    (∀ s ∈ storeA.sales, s.id ≠ storeA.next_sale_id)
    ∧ ((get_sale_details
          { (create_sale 1 "Admin" [itemOk] [] true storeA).2 with
            products := [] } 1).map
        (fun d => d.items.map
          (fun v => (v.product_id, v.quantity, v.unit_price, v.line_total))))
      = some ([itemOk].map
          (fun it => (it.product_id, it.quantity, it.unit_price, it.line_total))) :=
  ⟨by simp [storeA],
    commit_reread_round_trip storeA 1 "Admin" [itemOk] [] 1
      (create_sale 1 "Admin" [itemOk] [] true storeA).2 rfl
      (by simp [storeA]) (by simp [storeA]) []⟩

theorem create_sale_sales_suffix (cid : ℤ) (cname : String)
    (items : List CartItem) (dedOk : List Bool) (commitOk : Bool) (db : Store) :
    ∃ ns ni,
      (create_sale cid cname items dedOk commitOk db).2.sales = db.sales ++ ns
      ∧ (create_sale cid cname items dedOk commitOk db).2.sale_items
          = db.sale_items ++ ni := by
  have hfr := applyDeductions_frame items dedOk db
  cases commitOk
  · exact ⟨[], [], by simp [create_sale, hfr.1], by simp [create_sale, hfr.2.1]⟩
  · refine
      ⟨[{ id := db.next_sale_id, cashier_id := cid, cashier_name := cname,
          sale_date := db.now,
          grand_total := (items.map (fun it => it.line_total)).sum }],
        buildSaleItems db db.next_sale_id db.next_item_id items, ?_, ?_⟩
    · simp [create_sale, hfr.1]
    · simp [create_sale, hfr.2.1]

/-- C8. Sale immutability: every state-mutating operation the application
exposes — committing another sale (directly or through the POS window), the
inventory deduction, and adding, editing or deleting a product — leaves every
existing sales row and every existing sale_items row exactly in place,
at most appending new rows; no operation updates or deletes them. The
read-only operations (`get_product`, `validate_stock_availability`,
`get_sale_details`, `refresh_table`, `generate_report`) are pure functions
over the store and mutate nothing by construction. -/
theorem sales_immutable (op : Op) (db : Store) :
    ∃ ns ni,
      (applyOp op db).sales = db.sales ++ ns
      ∧ (applyOp op db).sale_items = db.sale_items ++ ni := by
  cases op with
  | opCreateSale cid cname items dedOk commitOk =>
      exact create_sale_sales_suffix cid cname items dedOk commitOk db
  | opCompleteSale cart cid cname dedOk commitOk =>
      rcases complete_sale_state db cart cid cname dedOk commitOk with h | ⟨h, _⟩
      · refine ⟨[], [], ?_, ?_⟩ <;> simp [applyOp, h]
      · have happ : applyOp (.opCompleteSale cart cid cname dedOk commitOk) db
            = (complete_sale db cart cid cname dedOk commitOk).2 := rfl
        rw [happ, h]
        exact create_sale_sales_suffix cid cname cart dedOk commitOk db
  | opUpdateInventory pid q =>
      exact ⟨[], [], by simp [applyOp, update_inventory_after_sale],
        by simp [applyOp, update_inventory_after_sale]⟩
  | opAddProduct data =>
      refine ⟨[], [], ?_, ?_⟩ <;>
        · rw [applyOp, add_product]
          split <;> simp
  | opEditProduct pid data =>
      refine ⟨[], [], ?_, ?_⟩ <;>
        · rw [applyOp, edit_product]
          rcases get_product db pid with _ | p
          · simp
          · simp only []
            split <;> simp
  | opDeleteProduct pid =>
      exact ⟨[], [], by simp [applyOp, delete_product],
        by simp [applyOp, delete_product]⟩

theorem foldl_report (db : Store) :
    ∀ (l : List SaleRow) (acc : ReportSummary),
      (l.foldl (report_step db) acc).rows
          = acc.rows ++ l.map (fun s =>
              { sale_id := s.id, sale_date := s.sale_date,
                cashier_name := s.cashier_name, grand_total := s.grand_total,
                profit := sale_profit db s.id })
      ∧ (l.foldl (report_step db) acc).total_sales
          = acc.total_sales + (l.map (fun s => s.grand_total)).sum
      ∧ (l.foldl (report_step db) acc).tx_count = acc.tx_count + l.length := by
  intro l
  induction l with
  | nil => intro acc; simp
  | cons s rest ih =>
      intro acc
      rw [List.foldl_cons]
      obtain ⟨h1, h2, h3⟩ := ih (report_step db acc s)
      refine ⟨?_, ?_, ?_⟩
      · rw [h1]
        simp [report_step]
      · rw [h2]
        simp [report_step]
        ring
      · rw [h3]
        simp [report_step]
        omega

theorem filterMap_cost (db : Store) :
    ∀ (l : List SaleItemRow),
      (∀ si ∈ l, ∃ p ∈ db.products, p.id = si.product_id) →
      l.filterMap (fun si =>
          (db.products.find? (fun p => p.id == si.product_id)).map
            (fun p => (si, p.cost_price)))
        = l.map (fun si => (si, current_cost_price db si.product_id)) := by
  intro l
  induction l with
  | nil => intro _; rfl
  | cons hd tl ih =>
      intro hall
      obtain ⟨p, hp, hpid⟩ := hall hd (List.mem_cons_self hd tl)
      have hsome : (db.products.find? (fun x => x.id == hd.product_id)).isSome := by
        rw [List.find?_isSome]
        exact ⟨p, hp, by simp [hpid]⟩
      obtain ⟨q, hq⟩ := Option.isSome_iff_exists.mp hsome
      rw [List.filterMap_cons, List.map_cons]
      rw [hq]
      have hcost : current_cost_price db hd.product_id = q.cost_price := by
        rw [current_cost_price, hq]
        rfl
      rw [hcost]
      rw [ih (fun si hsi => hall si (List.mem_cons_of_mem hd hsi))]
      rfl

theorem sale_profit_closed (db : Store) (sid : Nat)
    (hjoin : ∀ si ∈ db.sale_items, ∃ p ∈ db.products, p.id = si.product_id) :
    sale_profit db sid
      = ((db.sale_items.filter (fun r => r.sale_id == sid)).map
          (fun si => si.line_total
            - current_cost_price db si.product_id * (si.quantity : ℚ))).sum := by
  rw [sale_profit, sale_items_with_cost,
    filterMap_cost db _ (fun si hsi => hjoin si (List.mem_of_mem_filter hsi)),
    List.map_map]
  rfl

/-- C9. Report arithmetic: provided every line item's product still exists
(the INNER JOIN with products keeps a line only in that case), each report
row's per-sale profit equals the sum over the sale's line items of
`line_total - cost_price * quantity` with cost_price read from the products
table at report time (the product's current cost, not a sale-time snapshot);
the summary's total sales is the sum of grand_total over the sales in the
period and the transaction count is the number of sales in the period. -/
theorem generate_report_spec (db : Store) (a b : Nat)
    (hjoin : ∀ si ∈ db.sale_items, ∃ p ∈ db.products, p.id = si.product_id) :
    (∀ row ∈ (generate_report db a b).rows,
        row.profit
          = ((db.sale_items.filter (fun r => r.sale_id == row.sale_id)).map
              (fun si => si.line_total
                - current_cost_price db si.product_id * (si.quantity : ℚ))).sum)
    ∧ (generate_report db a b).total_sales
        = ((db.sales.filter (report_in_range a b)).map
            (fun s => s.grand_total)).sum
    ∧ (generate_report db a b).tx_count
        = (db.sales.filter (report_in_range a b)).length := by
  have hf := foldl_report db (db.sales.filter (report_in_range a b))
    { rows := [], total_sales := 0, total_cost := 0, total_profit := 0,
      tx_count := 0 }
  refine ⟨?_, ?_, ?_⟩
  · intro row hrow
    rw [generate_report, hf.1] at hrow
    simp only [List.nil_append, List.mem_map] at hrow
    obtain ⟨s, _, rfl⟩ := hrow
    exact sale_profit_closed db s.id hjoin
  · rw [generate_report, hf.2.1]
    simp
  · rw [generate_report, hf.2.2]
    simp

/-- Witness for C9 on a concrete store. -/
theorem generate_report_spec_witness :
    (∀ si ∈ storeC.sale_items, ∃ p ∈ storeC.products, p.id = si.product_id)
    ∧ (generate_report storeC 0 10).tx_count
        = (storeC.sales.filter (report_in_range 0 10)).length :=
  ⟨by decide, (generate_report_spec storeC 0 10 (by decide)).2.2⟩

theorem find?_map_available (pid : String) (f : ProductRow → ℤ) :
    ∀ (l : List ProductRow),
      ((l.map (fun r => { r with quantity_available := f r })).find?
          (fun r => r.id == pid)).map ProductRow.toProduct
        = (l.find? (fun r => r.id == pid)).map ProductRow.toProduct := by
  intro l
  induction l with
  | nil => rfl
  | cons hd tl ih =>
      rw [List.map_cons]
      by_cases h : (hd.id == pid) = true
      · have h1 : List.find? (fun r => r.id == pid)
            ({ hd with quantity_available := f hd }
              :: tl.map (fun r => { r with quantity_available := f r }))
            = some { hd with quantity_available := f hd } :=
          List.find?_cons_of_pos _ (by simpa using h)
        have h2 : List.find? (fun r => r.id == pid) (hd :: tl) = some hd :=
          List.find?_cons_of_pos _ h
        rw [h1, h2]
        rfl
      · have h1 : List.find? (fun r => r.id == pid)
            ({ hd with quantity_available := f hd }
              :: tl.map (fun r => { r with quantity_available := f r }))
            = List.find? (fun r => r.id == pid)
                (tl.map (fun r => { r with quantity_available := f r })) :=
          List.find?_cons_of_neg _ (by simpa using h)
        have h2 : List.find? (fun r => r.id == pid) (hd :: tl)
            = List.find? (fun r => r.id == pid) tl :=
          List.find?_cons_of_neg _ h
        rw [h1, h2]
        exact ih

theorem get_product_map_available (db : Store) (pid : String)
    (f : ProductRow → ℤ) :
    get_product
        { db with
          products := db.products.map (fun r => { r with quantity_available := f r }) }
        pid
      = get_product db pid := by
  rw [get_product, get_product]
  exact find?_map_available pid f db.products

/-- C10. Frame effect of the stock deduction: `update_inventory_after_sale`
rewrites only quantity_sold (adding the sold quantity on the matching row) and
updated_at; every other stored column — id, name, description, milliliters,
cost_price, selling_price, the stored profit, quantity_stocked, the stored
quantity_available, created_at — is unchanged, row by row. Consequently a
whole `create_sale` commit leaves the stored quantity_available column of
every product exactly as it was. The availability check recomputes
`quantity_stocked - quantity_sold` and never reads the stored column
(rewriting that column arbitrarily does not change its verdict), while the
inventory listing `refresh_table` displays exactly the stored
quantity_available values, which a deduction therefore leaves stale. -/
theorem inventory_deduction_frame (db : Store) (pid : String) (q : ℤ) :
    List.Forall₂ (fun r r' : ProductRow =>
        r'.id = r.id ∧ r'.name = r.name ∧ r'.description = r.description
        ∧ r'.milliliters = r.milliliters ∧ r'.cost_price = r.cost_price
        ∧ r'.selling_price = r.selling_price ∧ r'.profit = r.profit
        ∧ r'.quantity_stocked = r.quantity_stocked
        ∧ r'.quantity_available = r.quantity_available
        ∧ r'.created_at = r.created_at
        ∧ r'.quantity_sold = r.quantity_sold + (if r.id = pid then q else 0))
      db.products (update_inventory_after_sale db pid q).products
    ∧ (∀ (cid : ℤ) (cname : String) (items : List CartItem)
        (dedOk : List Bool) (commitOk : Bool),
        ((create_sale cid cname items dedOk commitOk db).2.products).map
            (fun r => (r.id, r.quantity_available))
          = db.products.map (fun r => (r.id, r.quantity_available)))
    ∧ (∀ (f : ProductRow → ℤ) (q' : ℤ),
        validate_stock_availability
            { db with
              products := db.products.map (fun r => { r with quantity_available := f r }) }
            pid q'
          = validate_stock_availability db pid q')
    ∧ List.Perm
        ((refresh_table (update_inventory_after_sale db pid q)).map
          (fun d => d.quantity_available))
        ((refresh_table db).map (fun d => d.quantity_available)) := by
  have havail : ∀ (items : List CartItem) (dedOk : List Bool),
      ((applyDeductions db items dedOk).products).map
          (fun r => (r.id, r.quantity_available))
        = db.products.map (fun r => (r.id, r.quantity_available)) := by
    intro items dedOk
    have h4 := applyDeductions_products items dedOk db
    have h2 := congrArg
      (List.map (fun t : String × ℤ × ℤ × ℤ => (t.1, t.2.2.2))) h4
    rw [List.map_map, List.map_map] at h2
    exact h2
  refine ⟨?_, ?_, ?_, ?_⟩
  · rw [update_inventory_after_sale]
    refine List.forall₂_map_right_iff.mpr (List.forall₂_same.mpr ?_)
    intro r _
    by_cases h : r.id = pid
    · simp [h]
    · simp [h]
  · intro cid cname items dedOk commitOk
    rw [create_sale_state_products]
    exact havail items dedOk
  · intro f q'
    rw [validate_stock_availability, validate_stock_availability,
      get_product_map_available]
  · have h1 : ∀ (s : Store),
        List.Perm ((refresh_table s).map (fun d => d.quantity_available))
          (s.products.map (fun r => r.quantity_available)) := by
      intro s
      rw [refresh_table, List.map_map]
      exact (List.mergeSort_perm s.products _).map _
    have h2 : (update_inventory_after_sale db pid q).products.map
          (fun r => r.quantity_available)
        = db.products.map (fun r => r.quantity_available) := by
      rw [update_inventory_after_sale, List.map_map]
      apply List.map_congr_left
      intro r _
      by_cases h : r.id = pid
      · simp [h, Function.comp]
      · simp [h, Function.comp]
    exact ((h1 (update_inventory_after_sale db pid q)).trans
      (h2 ▸ (h1 db).symm))
